import Mathlib

/-!
# htmx-todo: the HTTP adapter `adapters/todohttp/handler.go`

A shallow embedding of the handlers and of the route table registered by
`NewTodoHandler`.  Handlers are state transformers on a `World`: the list
service behind the handler, the `http.ResponseWriter`, and a trace of the
calls the handler makes on the list service and on the template set.

What the handlers merely call is taken as a parameter (`Env`): the list service
`todo.List`, `uuid.Parse`, the parsed template set and the embedded static
files.  The list service is also given a concrete model written from the
specification, `specList`.
-/

namespace TodoHTTP

/-! ## Data -/

/-- A `uuid.UUID`: sixteen bytes, identified with the number they spell. -/
structure UUID where
  val : Nat
deriving DecidableEq, Repr

/-- A todo item: identifier, description, completion flag. -/
structure TodoItem where
  ID : UUID
  Description : String
  Done : Bool
deriving DecidableEq, Repr

/-- The value handed to `ExecuteTemplate`: a sequence of items (`Todos`,
`Search`) or a single item (`ToggleDone`). -/
inductive TemplData where
  | items (l : List TodoItem)
  | item (t : TodoItem)
deriving DecidableEq, Repr

/-- What one template execution does: the chunks it writes to its `io.Writer`,
in order, and the error it returns, if any. -/
structure TemplResult where
  writes : List String
  err : Option String
deriving DecidableEq, Repr

/-! ## Requests -/

/-- An incoming request: method, URL path, URL query pairs and the pairs of a
form-encoded body, each in the order sent. -/
structure Request where
  method : String
  path : String
  query : List (String × String)
  postForm : List (String × String)
deriving DecidableEq, Repr

/-- The methods of `*todo.List` used by the handlers, over a state `σ`.
`Todos` and `Search` are queries; the other four may change the state. -/
structure ListOps (σ : Type) where
  Add : String → σ → σ
  ToggleDone : UUID → σ → TodoItem × σ
  Delete : UUID → σ → σ
  ReOrder : List String → σ → σ
  Todos : σ → List TodoItem
  Search : String → σ → List TodoItem

/-- Everything `handler.go` calls but does not define. -/
structure Env (σ : Type) where
  /-- The list service `t.list`. -/
  list : ListOps σ
  /-- The function `uuid.Parse`: the identifier, or the error message. -/
  parse : String → Except String UUID
  /-- The template set `t.templ`: outcome of executing the named template. -/
  templ : String → TemplData → TemplResult
  /-- The file server under `/static/`: status and body for a method and a
  path below the stripped prefix. -/
  static : String → String → Nat × String

/-! ## Form and query access -/

/-- All values stored under `key`, in order. -/
def values (key : String) (kvs : List (String × String)) : List String :=
  (kvs.filter (fun kv => kv.1 == key)).map (fun kv => kv.2)

/-- The map `r.Form` after `r.ParseForm()`: the body pairs (read only for
POST, PUT and PATCH) followed by the URL query pairs. -/
def Request.ParseForm (r : Request) : List (String × String) :=
  (if r.method == "POST" || r.method == "PUT" || r.method == "PATCH"
    then r.postForm else []) ++ r.query

/-- The lookup `r.Form[key]` after `r.ParseForm()`. -/
def Request.Form (r : Request) (key : String) : List String :=
  values key r.ParseForm

/-- The call `r.FormValue(key)`: the first value for `key`, or `""`. -/
def Request.FormValue (r : Request) (key : String) : String :=
  (r.Form key).headD ""

/-- The call `r.URL.Query().Get(key)`: the first value for `key`, or `""`. -/
def Request.QueryGet (r : Request) (key : String) : String :=
  (values key r.query).headD ""

/-- The map `mux.Vars(r)`. -/
abbrev Vars := List (String × String)

/-- The lookup `mux.Vars(r)[key]`: `""` when the key is absent. -/
def Vars.get (vs : Vars) (key : String) : String :=
  (values key vs).headD ""

/-! ## The response writer -/

/-- An `http.ResponseWriter`: the header map, the status line once written
(with the headers sent along with it), and the body written so far. -/
structure ResponseWriter where
  header : List (String × String)
  sent : Option (Nat × List (String × String))
  body : String
deriving DecidableEq, Repr

/-- A writer nothing has been written to. -/
def ResponseWriter.fresh : ResponseWriter :=
  { header := [], sent := none, body := "" }

/-- The call `w.Header().Set(k, v)`. -/
def ResponseWriter.Set (k v : String) (w : ResponseWriter) : ResponseWriter :=
  { w with header := (k, v) :: w.header.filter (fun kv => kv.1 != k) }

/-- The call `w.Header().Del(k)`. -/
def ResponseWriter.Del (k : String) (w : ResponseWriter) : ResponseWriter :=
  { w with header := w.header.filter (fun kv => kv.1 != k) }

/-- The call `w.WriteHeader(code)`: only the first call takes effect. -/
def ResponseWriter.WriteHeader (code : Nat) (w : ResponseWriter) : ResponseWriter :=
  match w.sent with
  | some _ => w
  | none => { w with sent := some (code, w.header) }

/-- The call `w.Write(b)`: sends status 200 first if no status was sent. -/
def ResponseWriter.Write (b : String) (w : ResponseWriter) : ResponseWriter :=
  let w1 := w.WriteHeader 200
  { w1 with body := w1.body ++ b }

/-- The status the client receives: 200 if the handler never wrote one. -/
def ResponseWriter.status (w : ResponseWriter) : Nat :=
  match w.sent with
  | some (code, _) => code
  | none => 200

/-- The value of a header the client receives. -/
def ResponseWriter.sentHeader (k : String) (w : ResponseWriter) : Option String :=
  match w.sent with
  | some (_, h) => (values k h).head?
  | none => (values k w.header).head?

/-- The function `http.Error(w, msg, code)`. -/
def httpError (msg : String) (code : Nat) (w : ResponseWriter) : ResponseWriter :=
  ((((w.Del "Content-Length").Set "Content-Type" "text/plain; charset=utf-8").Set
    "X-Content-Type-Options" "nosniff").WriteHeader code).Write (msg ++ "\n")

/-- The function `http.StatusText`, for the codes used here. -/
def statusText (code : Nat) : String :=
  if code = 301 then "Moved Permanently"
  else if code = 303 then "See Other"
  else ""

/-- The function `http.Redirect(w, r, url, code)` for a rooted, clean `url`
that needs no escaping. -/
def httpRedirect (r : Request) (url : String) (code : Nat) (w : ResponseWriter) :
    ResponseWriter :=
  let hadCT := (values "Content-Type" w.header) != []
  let w1 := w.Set "Location" url
  let w2 := if !hadCT && (r.method == "GET" || r.method == "HEAD")
    then w1.Set "Content-Type" "text/html; charset=utf-8" else w1
  let w3 := w2.WriteHeader code
  if !hadCT && r.method == "GET"
    then w3.Write ("<a href=\"" ++ url ++ "\">" ++ statusText code ++ "</a>.\n\n") else w3

/-! ## The world a handler runs in -/

/-- One call a handler makes on the list service or the template set. -/
inductive Event where
  | Add (description : String)
  | ToggleDone (id : UUID)
  | Delete (id : UUID)
  | ReOrder (ids : List String)
  | Todos
  | Search (q : String)
  | ExecuteTemplate (name : String) (data : TemplData)
deriving DecidableEq, Repr

/-- The list service, the response writer and the calls made so far. -/
structure World (σ : Type) where
  list : σ
  w : ResponseWriter
  trace : List Event

/-- The world at the start of a request. -/
def World.start {σ : Type} (l : σ) : World σ :=
  { list := l, w := ResponseWriter.fresh, trace := [] }

/-- Whether an event is one of the four mutating list operations. -/
def Event.mutating : Event → Bool
  | .Add _ => true
  | .ToggleDone _ => true
  | .Delete _ => true
  | .ReOrder _ => true
  | _ => false

/-- Whether an event is a call on the list service at all. -/
def Event.onList : Event → Bool
  | .ExecuteTemplate _ _ => false
  | _ => true

/-- The call `t.list.Add(d)`. -/
def listAdd {σ : Type} (env : Env σ) (d : String) (s : World σ) : World σ :=
  { s with list := env.list.Add d s.list, trace := s.trace ++ [Event.Add d] }

/-- The call `t.list.ToggleDone(id)`. -/
def listToggleDone {σ : Type} (env : Env σ) (id : UUID) (s : World σ) :
    TodoItem × World σ :=
  let res := env.list.ToggleDone id s.list
  (res.1, { s with list := res.2, trace := s.trace ++ [Event.ToggleDone id] })

/-- The call `t.list.Delete(id)`. -/
def listDelete {σ : Type} (env : Env σ) (id : UUID) (s : World σ) : World σ :=
  { s with list := env.list.Delete id s.list, trace := s.trace ++ [Event.Delete id] }

/-- The call `t.list.ReOrder(ids)`. -/
def listReOrder {σ : Type} (env : Env σ) (ids : List String) (s : World σ) : World σ :=
  { s with list := env.list.ReOrder ids s.list, trace := s.trace ++ [Event.ReOrder ids] }

/-- The call `t.list.Todos()`. -/
def listTodos {σ : Type} (env : Env σ) (s : World σ) : List TodoItem × World σ :=
  (env.list.Todos s.list, { s with trace := s.trace ++ [Event.Todos] })

/-- The call `t.list.Search(q)`. -/
def listSearch {σ : Type} (env : Env σ) (q : String) (s : World σ) :
    List TodoItem × World σ :=
  (env.list.Search q s.list, { s with trace := s.trace ++ [Event.Search q] })

/-- The call `t.templ.ExecuteTemplate(w, name, data)`: the template writes its
chunks to `w` and the error, if any, is returned. -/
def ExecuteTemplate {σ : Type} (env : Env σ) (name : String) (data : TemplData)
    (s : World σ) : Option String × World σ :=
  let res := env.templ name data
  (res.err, { s with
    w := res.writes.foldl (fun w b => w.Write b) s.w,
    trace := s.trace ++ [Event.ExecuteTemplate name data] })

/-! ## The handlers -/

/-- The handler `TodoHandler.index`. -/
def index {σ : Type} (env : Env σ) (_r : Request) (s : World σ) : World σ :=
  let (todos, s1) := listTodos env s
  match ExecuteTemplate env "index.gohtml" (.items todos) s1 with
  | (some err, s2) => { s2 with w := httpError err 500 s2.w }
  | (none, s2) => s2

/-- The handler `TodoHandler.add`. -/
def add {σ : Type} (env : Env σ) (r : Request) (s : World σ) : World σ :=
  let s1 := listAdd env (r.FormValue "description") s
  { s1 with w := httpRedirect r "/" 303 s1.w }

/-- The handler `TodoHandler.toggle`. -/
def toggle {σ : Type} (env : Env σ) (_r : Request) (vars : Vars) (s : World σ) :
    World σ :=
  match env.parse (vars.get "ID") with
  | .error err => { s with w := httpError err 400 s.w }
  | .ok id =>
    let (item, s1) := listToggleDone env id s
    (ExecuteTemplate env "item.gohtml" (.item item) s1).2

/-- The handler `TodoHandler.delete`. -/
def delete {σ : Type} (env : Env σ) (_r : Request) (vars : Vars) (s : World σ) :
    World σ :=
  match env.parse (vars.get "ID") with
  | .error err => { s with w := httpError err 400 s.w }
  | .ok id => listDelete env id s

/-- The handler `TodoHandler.reOrder`. -/
def reOrder {σ : Type} (env : Env σ) (r : Request) (s : World σ) : World σ :=
  let s1 := listReOrder env (r.Form "id") s
  let (todos, s2) := listTodos env s1
  match ExecuteTemplate env "items.gohtml" (.items todos) s2 with
  | (some err, s3) => { s3 with w := httpError err 500 s3.w }
  | (none, s3) => s3

/-- The handler `TodoHandler.search`. -/
def search {σ : Type} (env : Env σ) (r : Request) (s : World σ) : World σ :=
  let (found, s1) := listSearch env (r.QueryGet "search") s
  match ExecuteTemplate env "items.gohtml" (.items found) s1 with
  | (some err, s2) => { s2 with w := httpError err 500 s2.w }
  | (none, s2) => s2

/-! ## The router -/

/-- The seven handlers a route can lead to. -/
inductive HandlerId where
  | index | add | search | toggle | delete | reOrder | static
deriving DecidableEq, Repr

/-- A piece of a path template: literal text or a variable such as `{ID}`,
which stands for one or more characters other than `/`. -/
inductive Piece where
  | lit (text : String)
  | var (name : String)
deriving DecidableEq, Repr

/-- A registered route: the path template, whether the template must match
the whole path (`HandleFunc`) or only its beginning (`PathPrefix`), the
methods allowed (none listed: every method) and the handler. -/
structure Route where
  pieces : List Piece
  whole : Bool
  methods : List String
  handler : HandlerId
deriving DecidableEq, Repr

/-- The function `NewTodoHandler`, as far as routing goes: the routes it
registers on the router, in registration order. -/
def NewTodoHandler : List Route :=
  [ { pieces := [.lit "/"], whole := true, methods := ["GET"], handler := .index },
    { pieces := [.lit "/todos"], whole := true, methods := ["POST"], handler := .add },
    { pieces := [.lit "/todos"], whole := true, methods := ["GET"], handler := .search },
    { pieces := [.lit "/todos/", .var "ID", .lit "/toggle"], whole := true,
      methods := ["POST"], handler := .toggle },
    { pieces := [.lit "/todos/", .var "ID"], whole := true,
      methods := ["DELETE"], handler := .delete },
    { pieces := [.lit "/todos/sort"], whole := true, methods := ["POST"],
      handler := .reOrder },
    { pieces := [.lit "/static/"], whole := false, methods := [], handler := .static } ]

/-- Remove the literal `lit` from the front of `s`, if `s` starts with it. -/
def stripLit : List Char → List Char → Option (List Char)
  | [], s => some s
  | _ :: _, [] => none
  | c :: lit, d :: s => if c = d then stripLit lit s else none

/-- Match path pieces against the front of `s`: the unmatched rest and the
variables bound.  A variable takes the longest run of characters other than
`/`; that is the only way its pattern `[^/]+` can match when, as in every
template of `NewTodoHandler`, it is followed by the end of the path or by a `/`. -/
def matchPieces : List Piece → List Char → Option (List Char × Vars)
  | [], s => some (s, [])
  | .lit text :: ps, s =>
    match stripLit text.data s with
    | none => none
    | some rest => matchPieces ps rest
  | .var name :: ps, s =>
    let v := s.takeWhile (fun c => c != '/')
    if v.isEmpty then none
    else
      match matchPieces ps (s.dropWhile (fun c => c != '/')) with
      | none => none
      | some (rest, vars) => some (rest, (name, String.mk v) :: vars)

/-- The path matcher of a route: the variables bound when the path matches. -/
def Route.matchPath (rt : Route) (path : String) : Option Vars :=
  match matchPieces rt.pieces path.data with
  | none => none
  | some (rest, vars) => if rt.whole && !rest.isEmpty then none else some vars

/-- The method matcher of a route. -/
def Route.matchMethod (rt : Route) (method : String) : Bool :=
  rt.methods.isEmpty || rt.methods.contains method

/-- A route matches a request when its method and its path matchers do. -/
def Route.matchReq (rt : Route) (method path : String) : Option Vars :=
  if rt.matchMethod method then rt.matchPath path else none

/-- The routes of a table that match a request. -/
def matching (table : List Route) (method path : String) : List Route :=
  table.filter (fun rt => (rt.matchReq method path).isSome)

/-- The router picks the first route of the table that matches. -/
def Match (table : List Route) (method path : String) : Option (HandlerId × Vars) :=
  match table with
  | [] => none
  | rt :: rest =>
    match rt.matchReq method path with
    | some vars => some (rt.handler, vars)
    | none => Match rest method path

/-- The path elements between the slashes of a path. -/
def splitSlash : List Char → List (List Char)
  | [] => [[]]
  | c :: cs =>
    if c = '/' then [] :: splitSlash cs
    else
      match splitSlash cs with
      | [] => [[c]]
      | seg :: segs => (c :: seg) :: segs

/-- Drop empty and `.` elements, and let `..` cancel the element before it
(or nothing, at the root).  The elements kept so far are in `kept`, last
first. -/
def cleanSegs (kept : List (List Char)) : List (List Char) → List (List Char)
  | [] => kept.reverse
  | seg :: rest =>
    if seg = [] ∨ seg = ['.'] then cleanSegs kept rest
    else if seg = ['.', '.'] then cleanSegs kept.tail rest
    else cleanSegs (seg :: kept) rest

/-- The function `path.Clean` on a rooted path. -/
def pathClean (p : List Char) : List Char :=
  match cleanSegs [] (splitSlash p) with
  | [] => ['/']
  | segs => (segs.map (fun seg => '/' :: seg)).flatten

/-- The function `cleanPath` of the router: the canonical form of a URL path,
rooted, with a trailing slash kept. -/
def cleanPath (p : String) : String :=
  if p = "" then "/"
  else
    let q := if p.data.head? = some '/' then p.data else '/' :: p.data
    let np := pathClean q
    if q.getLast? = some '/' ∧ np ≠ ['/'] then String.mk (np ++ ['/']) else String.mk np

/-- Where a request ends up: `none` when the router answers by itself (a
redirect to the clean path, 404 or 405), else the handler and its variables. -/
def routed (r : Request) : Option (HandlerId × Vars) :=
  if cleanPath r.path = r.path then Match NewTodoHandler r.method r.path else none

/-- Run the handler a route leads to. -/
def HandlerId.run {σ : Type} (env : Env σ) (r : Request) (vars : Vars)
    (s : World σ) : HandlerId → World σ
  | .index => TodoHTTP.index env r s
  | .add => TodoHTTP.add env r s
  | .search => TodoHTTP.search env r s
  | .toggle => TodoHTTP.toggle env r vars s
  | .delete => TodoHTTP.delete env r vars s
  | .reOrder => TodoHTTP.reOrder env r s
  | .static =>
    let res := env.static r.method (String.mk (r.path.data.drop 8))
    { s with w := (s.w.WriteHeader res.1).Write res.2 }

/-- The method `TodoHandler.ServeHTTP`, which is the router: redirect (to the
clean path; the query string is left out here) when the path is not clean,
else run the first matching route; with no match, answer 405 when some route
matches the path alone and 404 otherwise. -/
def ServeHTTP {σ : Type} (env : Env σ) (r : Request) (l : σ) : World σ :=
  let s := World.start l
  if cleanPath r.path = r.path then
    match Match NewTodoHandler r.method r.path with
    | some (h, vars) => h.run env r vars s
    | none =>
      if NewTodoHandler.any (fun rt => (rt.matchPath r.path).isSome)
      then { s with w := s.w.WriteHeader 405 }
      else { s with w := httpError "404 page not found" 404 s.w }
  else { s with w := (s.w.Set "Location" (cleanPath r.path)).WriteHeader 301 }

/-- The list after serving a request. -/
def after {σ : Type} (env : Env σ) (r : Request) (l : σ) : σ :=
  (ServeHTTP env r l).list

/-- The status of the response to a request. -/
def statusOf {σ : Type} (env : Env σ) (r : Request) (l : σ) : Nat :=
  (ServeHTTP env r l).w.status

/-! ## The list service, written from the specification

The package `domain/todo` that defines `todo.List` is not among the sources.
The definitions below follow section 4.1 of the specification. -/

/-- Modelled from the spec: the state of the absent type `todo.List`, "an
ordered sequence of TodoItem". -/
abbrev TodoList := List TodoItem

namespace Spec

/-- Modelled from the spec: the identifier the absent `Add` gives a new item,
"a freshly generated unique ID"; here one more than the largest in use. -/
def freshID (l : TodoList) : UUID :=
  ⟨(l.map (fun t => t.ID.val)).foldr max 0 + 1⟩

/-- Modelled from the spec: the absent method `Add`, which "appends a new item
with a freshly generated unique ID and Done=false", with no validation of the
description. -/
def Add (description : String) (l : TodoList) : TodoList :=
  l ++ [{ ID := freshID l, Description := description, Done := false }]

/-- Modelled from the spec: the state change of the absent method `ToggleDone`,
which "flips the Done flag of the item matching id" and is a no-op when no item
matches. -/
def toggleItem (id : UUID) : TodoList → TodoList
  | [] => []
  | t :: ts =>
    if t.ID = id then { t with Done := !t.Done } :: ts else t :: toggleItem id ts

/-- Modelled from the spec: the absent method `ToggleDone`, which "returns the
updated item"; with no matching item it returns the zero item. -/
def ToggleDone (id : UUID) (l : TodoList) : TodoItem × TodoList :=
  let l1 := toggleItem id l
  ((l1.find? (fun t => t.ID = id)).getD { ID := ⟨0⟩, Description := "", Done := false }, l1)

/-- Modelled from the spec: the absent method `Delete`, which "removes the item
matching id; no-op if not found". -/
def Delete (id : UUID) : TodoList → TodoList
  | [] => []
  | t :: ts => if t.ID = id then ts else t :: Delete id ts

/-- Modelled from the spec: the absent method `ReOrder`, which "rearranges the
list to match the given ordered sequence of IDs; items not listed retain
relative order appended at the end".  Strings that are no identifier of an
item are skipped and a repeated identifier counts once. -/
def ReOrder (parse : String → Except String UUID) (ids : List String)
    (l : TodoList) : TodoList :=
  let wanted := (ids.filterMap (fun s => (parse s).toOption)).eraseDups
  wanted.filterMap (fun id => l.find? (fun t => t.ID = id))
    ++ l.filter (fun t => !wanted.contains t.ID)

/-- Modelled from the spec: the absent method `Todos`, which "returns the full
ordered sequence for display". -/
def Todos (l : TodoList) : List TodoItem := l

/-- Modelled from the spec: whether `sub` occurs in `text`, for the absent
method `Search`. -/
def containsSub (text sub : List Char) : Bool :=
  text.tails.any (fun t => sub.isPrefixOf t)

/-- Modelled from the spec: the absent method `Search`, which "returns the
subsequence of items whose description contains the substring ... preserving
existing order".  Case sensitivity is left to the implementer there: `fold`
is applied to every character before comparing (the identity for a
case-sensitive search, `Char.toLower` for the recommended one). -/
def Search (fold : Char → Char) (q : String) (l : TodoList) : List TodoItem :=
  l.filter (fun t => containsSub (t.Description.data.map fold) (q.data.map fold))

end Spec

/-- Modelled from the spec: the absent list service `todo.List` as the handlers
see it, for a given `uuid.Parse` and a given case folding. -/
def specList (parse : String → Except String UUID) (fold : Char → Char) :
    ListOps TodoList :=
  { Add := Spec.Add
    ToggleDone := Spec.ToggleDone
    Delete := Spec.Delete
    ReOrder := Spec.ReOrder parse
    Todos := Spec.Todos
    Search := Spec.Search fold }

/-! ## The function `uuid.Parse`

The handlers take `uuid.Parse` as a parameter.  For the sample requests below
it is the function of the package `github.com/google/uuid`, which reads a
string of 36 bytes (`xxxxxxxx-xxxx-xxxx-xxxx-xxxxxxxxxxxx`), of 45 bytes (the
same after `urn:uuid:`), of 38 bytes (the same between two more bytes) or of
32 bytes (hex digits only), and rejects every other length. -/

/-- The bytes of a string, as numbers. -/
def utf8Bytes (s : String) : List Nat :=
  s.data.flatMap (fun c => (String.utf8EncodeChar c).map (fun b => b.toNat))

/-- The table `xvalues` of the package: the value of a hex digit, 255 for
every other byte. -/
def xvalue (b : Nat) : Nat :=
  if 48 ≤ b ∧ b ≤ 57 then b - 48
  else if 97 ≤ b ∧ b ≤ 102 then b - 87
  else if 65 ≤ b ∧ b ≤ 70 then b - 55
  else 255

/-- The function `xtob`: the byte two hex digits spell, if both are hex digits. -/
def xtob (x1 x2 : Nat) : Option Nat :=
  if xvalue x1 != 255 && xvalue x2 != 255 then some (xvalue x1 * 16 + xvalue x2) else none

/-- The bytes spelled by the hex pairs of `s` at the given offsets. -/
def hexPairs (s : List Nat) : List Nat → Option (List Nat)
  | [] => some []
  | x :: xs =>
    match xtob (s.getD x 0) (s.getD (x + 1) 0), hexPairs s xs with
    | some v, some vs => some (v :: vs)
    | _, _ => none

/-- The identifier made of sixteen bytes. -/
def UUID.ofBytes (bs : List Nat) : UUID :=
  ⟨bs.foldl (fun acc b => acc * 256 + b) 0⟩

/-- Lower case of an ASCII byte. -/
def asciiLower (b : Nat) : Nat :=
  if 65 ≤ b ∧ b ≤ 90 then b + 32 else b

/-- A hex digit, as a character. -/
def hexDigit (n : Nat) : Char :=
  "0123456789abcdef".data.getD n '0'

/-- One byte as the verb `%q` shows it (34 is the double quote and 92 the
backslash); bytes outside ASCII are shown in the hexadecimal form. -/
def quoteByte (b : Nat) : List Char :=
  if b = 34 then [Char.ofNat 92, Char.ofNat 34]
  else if b = 92 then [Char.ofNat 92, Char.ofNat 92]
  else if b = 7 then [Char.ofNat 92, 'a']
  else if b = 8 then [Char.ofNat 92, 'b']
  else if b = 12 then [Char.ofNat 92, 'f']
  else if b = 10 then [Char.ofNat 92, 'n']
  else if b = 13 then [Char.ofNat 92, 'r']
  else if b = 9 then [Char.ofNat 92, 't']
  else if b = 11 then [Char.ofNat 92, 'v']
  else if 32 ≤ b ∧ b < 127 then [Char.ofNat b]
  else [Char.ofNat 92, 'x', hexDigit (b / 16), hexDigit (b % 16)]

/-- Bytes as the verb `%q` shows them. -/
def quote (bs : List Nat) : String :=
  String.mk (Char.ofNat 34 :: (bs.flatMap quoteByte) ++ [Char.ofNat 34])

/-- The function `uuid.Parse` of `github.com/google/uuid`: the identifier a
string spells, or the text of the error. -/
def uuidParse (s : String) : Except String UUID :=
  let b := utf8Bytes s
  let n := b.length
  if n = 32 then
    match hexPairs b [0, 2, 4, 6, 8, 10, 12, 14, 16, 18, 20, 22, 24, 26, 28, 30] with
    | some bs => .ok (UUID.ofBytes bs)
    | none => .error "invalid UUID format"
  else if n = 36 ∨ n = 36 + 9 ∨ n = 36 + 2 then
    if n = 36 + 9 ∧ (b.take 9).map asciiLower ≠ utf8Bytes "urn:uuid:" then
      .error ("invalid urn prefix: " ++ quote (b.take 9))
    else
      let t := if n = 36 + 9 then b.drop 9 else if n = 36 + 2 then b.drop 1 else b
      if t.getD 8 0 ≠ 45 ∨ t.getD 13 0 ≠ 45 ∨ t.getD 18 0 ≠ 45 ∨ t.getD 23 0 ≠ 45 then
        .error "invalid UUID format"
      else
        match hexPairs t [0, 2, 4, 6, 9, 11, 14, 16, 19, 21, 24, 26, 28, 30, 32, 34] with
        | some bs => .ok (UUID.ofBytes bs)
        | none => .error "invalid UUID format"
  else .error ("invalid UUID length: " ++ toString n)

/-! ## Sample environments -/

/-- A sample environment: `uuid.Parse` as above, the list service of the
specification and templates that write their own name. -/
def exampleEnv : Env TodoList :=
  { list := specList uuidParse id
    parse := uuidParse
    templ := fun name _ => { writes := [name], err := none }
    static := fun _ p => (200, p) }

/-- A sample environment whose templates fail before writing anything. -/
def failingEnv : Env TodoList :=
  { list := specList uuidParse id
    parse := uuidParse
    templ := fun name _ => { writes := [], err := some ("template: " ++ name ++ " failed") }
    static := fun _ p => (200, p) }

/-- A sample environment whose templates write some output and then fail. -/
def partialEnv : Env TodoList :=
  { list := specList uuidParse id
    parse := uuidParse
    templ := fun name _ =>
      { writes := ["<ul>"], err := some ("template: " ++ name ++ " failed") }
    static := fun _ p => (200, p) }

/-- A sample list: its items have the identifiers
`00000000-0000-0000-0000-000000000003` and
`00000000-0000-0000-0000-000000000007`. -/
def exampleList : TodoList :=
  [ { ID := ⟨3⟩, Description := "buy milk", Done := false },
    { ID := ⟨7⟩, Description := "walk dog", Done := true } ]

/-! ## The response writer: what the client sees -/

theorem status_Write (b : String) (w : ResponseWriter) : (w.Write b).status = w.status := by
  cases w with
  | mk header sent body =>
    cases sent <;> rfl

theorem status_foldl_Write (bs : List String) (w : ResponseWriter) :
    (bs.foldl (fun w b => w.Write b) w).status = w.status := by
  induction bs generalizing w with
  | nil => rfl
  | cons b bs ih => simp only [List.foldl_cons, ih, status_Write]

theorem status_httpError (msg : String) (code : Nat) (w : ResponseWriter)
    (hw : w.sent = none) : (httpError msg code w).status = code := by
  rw [httpError, status_Write]
  simp [ResponseWriter.WriteHeader, ResponseWriter.Set, ResponseWriter.Del,
    ResponseWriter.status, hw]

theorem body_httpError (msg : String) (code : Nat) (w : ResponseWriter)
    (hw : w.body = "") : (httpError msg code w).body = msg ++ "\n" := by
  have h0 : ∀ (w : ResponseWriter) (c : Nat), (w.WriteHeader c).body = w.body := by
    intro w c
    unfold ResponseWriter.WriteHeader
    cases w.sent <;> rfl
  simp [httpError, ResponseWriter.Write, h0, ResponseWriter.Set, ResponseWriter.Del, hw]

/-! ## From the router to the handlers -/

theorem serve_of_routed {σ : Type} (env : Env σ) (r : Request) (l : σ) (h : HandlerId)
    (vars : Vars) (hr : routed r = some (h, vars)) :
    ServeHTTP env r l = h.run env r vars (World.start l) := by
  unfold routed at hr
  unfold ServeHTTP
  by_cases hc : cleanPath r.path = r.path
  · simp only [hc, if_true] at hr ⊢
    simp [hr]
  · simp [hc] at hr

theorem routed_add (r : Request) (hm : r.method = "POST") (hp : r.path = "/todos") :
    routed r = some (.add, []) := by
  unfold routed
  rw [hm, hp]
  decide

theorem routed_search (r : Request) (hm : r.method = "GET") (hp : r.path = "/todos") :
    routed r = some (.search, []) := by
  unfold routed
  rw [hm, hp]
  decide

theorem routed_reOrder (r : Request) (hm : r.method = "POST") (hp : r.path = "/todos/sort") :
    routed r = some (.reOrder, []) := by
  unfold routed
  rw [hm, hp]
  decide

theorem form_of_post (r : Request) (key : String) (hm : r.method = "POST") :
    r.Form key = values key (r.postForm ++ r.query) := by
  simp [Request.Form, Request.ParseForm, hm]

/-! ## Malformed identifiers -/

theorem toggle_bad_id {σ : Type} (env : Env σ) (r : Request) (vars : Vars) (s : World σ)
    (msg : String) (hp : env.parse (vars.get "ID") = .error msg) :
    toggle env r vars s = { s with w := httpError msg 400 s.w } := by
  simp [toggle, hp]

theorem delete_bad_id {σ : Type} (env : Env σ) (r : Request) (vars : Vars) (s : World σ)
    (msg : String) (hp : env.parse (vars.get "ID") = .error msg) :
    delete env r vars s = { s with w := httpError msg 400 s.w } := by
  simp [delete, hp]

/-- C1: a request the router hands to `toggle` or to `delete` whose `ID`
variable `uuid.Parse` rejects is answered with status 400 Bad Request, the
body being the text of the parse error. -/
theorem malformed_id_bad_request {σ : Type} (env : Env σ) (r : Request) (l : σ)
    (h : HandlerId) (vars : Vars) (msg : String)
    (hr : routed r = some (h, vars)) (hh : h = .toggle ∨ h = .delete)
    (hp : env.parse (vars.get "ID") = .error msg) :
    statusOf env r l = 400 ∧ (ServeHTTP env r l).w.body = msg ++ "\n" := by
  rw [statusOf, serve_of_routed env r l h vars hr]
  rcases hh with rfl | rfl
  · simp only [HandlerId.run, toggle_bad_id env r vars _ msg hp]
    exact ⟨status_httpError msg 400 _ rfl, body_httpError msg 400 _ rfl⟩
  · simp only [HandlerId.run, delete_bad_id env r vars _ msg hp]
    exact ⟨status_httpError msg 400 _ rfl, body_httpError msg 400 _ rfl⟩

/-- Witness for C1: `DELETE /todos/sort` reaches `delete` with `ID = "sort"`,
which is no identifier. -/
theorem malformed_id_bad_request_witness :
    statusOf exampleEnv ⟨"DELETE", "/todos/sort", [], []⟩ exampleList = 400 ∧
    (ServeHTTP exampleEnv ⟨"DELETE", "/todos/sort", [], []⟩ exampleList).w.body
      = "invalid UUID length: 4\n" :=
  malformed_id_bad_request exampleEnv ⟨"DELETE", "/todos/sort", [], []⟩ exampleList .delete
    [("ID", "sort")] "invalid UUID length: 4" (by decide) (Or.inr rfl) rfl

/-- C8: a request the router hands to `toggle` or to `delete` whose `ID`
variable `uuid.Parse` rejects makes no call at all on the list service and
executes no template, and the list afterwards is the list before. -/
theorem malformed_id_touches_nothing {σ : Type} (env : Env σ) (r : Request) (l : σ)
    (h : HandlerId) (vars : Vars) (msg : String)
    (hr : routed r = some (h, vars)) (hh : h = .toggle ∨ h = .delete)
    (hp : env.parse (vars.get "ID") = .error msg) :
    (ServeHTTP env r l).trace = [] ∧ after env r l = l := by
  rw [after, serve_of_routed env r l h vars hr]
  rcases hh with rfl | rfl
  · simp only [HandlerId.run, toggle_bad_id env r vars _ msg hp]
    exact ⟨rfl, rfl⟩
  · simp only [HandlerId.run, delete_bad_id env r vars _ msg hp]
    exact ⟨rfl, rfl⟩

/-- Witness for C8: `POST /todos/abc/toggle`, where `abc` is no identifier. -/
theorem malformed_id_touches_nothing_witness :
    (ServeHTTP exampleEnv ⟨"POST", "/todos/abc/toggle", [], []⟩ exampleList).trace = [] ∧
    after exampleEnv ⟨"POST", "/todos/abc/toggle", [], []⟩ exampleList = exampleList :=
  malformed_id_touches_nothing exampleEnv ⟨"POST", "/todos/abc/toggle", [], []⟩ exampleList
    .toggle [("ID", "abc")] "invalid UUID length: 3" (by decide) (Or.inl rfl) rfl

/-! ## Adding -/

/-- C3: every `POST /todos` request makes exactly one call on the list
service, `Add` with the first value of the form field `description` (the
empty string when the field is absent), whatever that value is, and is
answered with status 303 See Other and `Location: /`. -/
theorem add_once_then_redirect {σ : Type} (env : Env σ) (r : Request) (l : σ)
    (hm : r.method = "POST") (hp : r.path = "/todos") :
    r.FormValue "description" = (values "description" (r.postForm ++ r.query)).headD "" ∧
    (ServeHTTP env r l).trace = [Event.Add (r.FormValue "description")] ∧
    after env r l = env.list.Add (r.FormValue "description") l ∧
    statusOf env r l = 303 ∧
    (ServeHTTP env r l).w.sentHeader "Location" = some "/" := by
  refine ⟨by rw [Request.FormValue, form_of_post r _ hm], ?_⟩
  rw [after, statusOf, serve_of_routed env r l .add [] (routed_add r hm hp)]
  simp [HandlerId.run, add, listAdd, httpRedirect, hm, World.start, ResponseWriter.fresh,
    ResponseWriter.Set, ResponseWriter.WriteHeader, ResponseWriter.status,
    ResponseWriter.sentHeader, values]

/-- Witness for C3: a `POST /todos` request without a `description` field
adds an item with the empty description and is redirected. -/
theorem add_once_then_redirect_witness :
    (ServeHTTP exampleEnv ⟨"POST", "/todos", [], []⟩ exampleList).trace = [Event.Add ""] ∧
    statusOf exampleEnv ⟨"POST", "/todos", [], []⟩ exampleList = 303 :=
  ⟨(add_once_then_redirect exampleEnv ⟨"POST", "/todos", [], []⟩ exampleList rfl rfl).2.1,
   (add_once_then_redirect exampleEnv ⟨"POST", "/todos", [], []⟩ exampleList rfl rfl).2.2.2.1⟩

/-! ## Rendering -/

theorem index_run {σ : Type} (env : Env σ) (r : Request) (l : σ) :
    (index env r (World.start l)).list = l ∧
    (index env r (World.start l)).trace
      = [Event.Todos, Event.ExecuteTemplate "index.gohtml" (.items (env.list.Todos l))] := by
  unfold index
  simp only [listTodos, ExecuteTemplate, World.start]
  cases (env.templ "index.gohtml" (.items (env.list.Todos l))).err <;> exact ⟨rfl, rfl⟩

theorem search_run {σ : Type} (env : Env σ) (r : Request) (l : σ) :
    (search env r (World.start l)).list = l ∧
    (search env r (World.start l)).trace
      = [Event.Search (r.QueryGet "search"),
         Event.ExecuteTemplate "items.gohtml" (.items (env.list.Search (r.QueryGet "search") l))] := by
  unfold search
  simp only [listSearch, ExecuteTemplate, World.start]
  cases (env.templ "items.gohtml" (.items (env.list.Search (r.QueryGet "search") l))).err <;>
    exact ⟨rfl, rfl⟩

theorem reOrder_run {σ : Type} (env : Env σ) (r : Request) (l : σ) :
    (reOrder env r (World.start l)).list = env.list.ReOrder (r.Form "id") l ∧
    (reOrder env r (World.start l)).trace
      = [Event.ReOrder (r.Form "id"), Event.Todos,
         Event.ExecuteTemplate "items.gohtml"
          (.items (env.list.Todos (env.list.ReOrder (r.Form "id") l)))] := by
  unfold reOrder
  simp only [listReOrder, listTodos, ExecuteTemplate, World.start]
  cases (env.templ "items.gohtml"
    (.items (env.list.Todos (env.list.ReOrder (r.Form "id") l)))).err <;> exact ⟨rfl, rfl⟩

theorem Match_some (table : List Route) (m p : String) (h : HandlerId) (vars : Vars)
    (hmatch : Match table m p = some (h, vars)) :
    ∃ rt ∈ table, rt.handler = h ∧ rt.matchMethod m = true ∧ rt.matchPath p = some vars := by
  induction table with
  | nil => simp [Match] at hmatch
  | cons rt rest ih =>
    unfold Match at hmatch
    cases hreq : rt.matchReq m p with
    | none =>
      rw [hreq] at hmatch
      obtain ⟨rt2, hmem, hrest⟩ := ih hmatch
      exact ⟨rt2, List.mem_cons_of_mem _ hmem, hrest⟩
    | some vs =>
      rw [hreq] at hmatch
      simp only [Option.some.injEq, Prod.mk.injEq] at hmatch
      refine ⟨rt, List.mem_cons_self _ _, hmatch.1, ?_⟩
      unfold Route.matchReq at hreq
      by_cases hm : rt.matchMethod m = true
      · rw [if_pos hm] at hreq
        exact ⟨hm, by rw [hreq, hmatch.2]⟩
      · rw [if_neg hm] at hreq
        cases hreq

theorem match_get (p : String) (h : HandlerId) (vars : Vars)
    (hmatch : Match NewTodoHandler "GET" p = some (h, vars)) :
    h = .index ∨ h = .search ∨ h = .static := by
  obtain ⟨rt, hmem, hh, hm, -⟩ := Match_some NewTodoHandler "GET" p h vars hmatch
  simp only [NewTodoHandler, List.mem_cons, List.mem_singleton, List.not_mem_nil,
    or_false] at hmem
  rcases hmem with rfl | rfl | rfl | rfl | rfl | rfl | rfl <;>
    first
    | exact absurd hm (by decide)
    | (subst hh; simp)

theorem get_routed (r : Request) (hm : r.method = "GET") (h : HandlerId) (vars : Vars)
    (hr : routed r = some (h, vars)) : h = .index ∨ h = .search ∨ h = .static := by
  unfold routed at hr
  rw [hm] at hr
  split at hr
  · exact match_get r.path h vars hr
  · cases hr

theorem get_serve {σ : Type} (env : Env σ) (r : Request) (l : σ)
    (hm : r.method = "GET") :
    (ServeHTTP env r l).list = l ∧
    (ServeHTTP env r l).trace.all (fun e => !e.mutating) = true ∧
    ((ServeHTTP env r l).trace.filter Event.onList = [] ∨
     (ServeHTTP env r l).trace.filter Event.onList = [Event.Todos] ∨
     (ServeHTTP env r l).trace.filter Event.onList = [Event.Search (r.QueryGet "search")]) := by
  unfold ServeHTTP
  by_cases hc : cleanPath r.path = r.path
  · simp only [hc, if_true, hm]
    cases hmatch : Match NewTodoHandler "GET" r.path with
    | none =>
      simp only
      split <;> simp [World.start]
    | some hv =>
      obtain ⟨h, vars⟩ := hv
      simp only
      rcases match_get r.path h vars hmatch with rfl | rfl | rfl
      · simp [HandlerId.run, index_run env r l, Event.mutating, Event.onList]
      · simp [HandlerId.run, search_run env r l, Event.mutating, Event.onList]
      · simp [HandlerId.run, World.start]
  · simp [hc, World.start]

/-- C10: a `GET` request, whatever its path and query, is handed to `index`,
to `search`, to the static files or to no handler, and leaves the list as it
was; it makes none of the calls `Add`, `ToggleDone`, `Delete`, `ReOrder`: its
calls on the list service are no call at all, or the single call `Todos`
(from `index`), or the single call `Search` (from `search`). -/
theorem get_is_read_only {σ : Type} (env : Env σ) (r : Request) (l : σ)
    (hm : r.method = "GET") :
    after env r l = l ∧
    (∀ h vars, routed r = some (h, vars) → h = .index ∨ h = .search ∨ h = .static) ∧
    (ServeHTTP env r l).trace.all (fun e => !e.mutating) = true ∧
    ((ServeHTTP env r l).trace.filter Event.onList = [] ∨
     (ServeHTTP env r l).trace.filter Event.onList = [Event.Todos] ∨
     (ServeHTTP env r l).trace.filter Event.onList = [Event.Search (r.QueryGet "search")]) :=
  ⟨(get_serve env r l hm).1, get_routed r hm, (get_serve env r l hm).2⟩

/-- Witness for C10: `GET /todos?search=milk` on the sample list. -/
theorem get_is_read_only_witness :
    after exampleEnv ⟨"GET", "/todos", [("search", "milk")], []⟩ exampleList = exampleList ∧
    (ServeHTTP exampleEnv ⟨"GET", "/todos", [("search", "milk")], []⟩ exampleList).trace.all
      (fun e => !e.mutating) = true :=
  ⟨(get_is_read_only exampleEnv ⟨"GET", "/todos", [("search", "milk")], []⟩ exampleList rfl).1,
   (get_is_read_only exampleEnv ⟨"GET", "/todos", [("search", "milk")], []⟩ exampleList
      rfl).2.2.1⟩

/-- C4: every `POST /todos/sort` request calls `ReOrder` exactly once, with
all values of the form field `id` in the order sent, then reads `Todos` and
executes `items.gohtml` on what `Todos` returns for the reordered list; and
the list afterwards is the reordered list. -/
theorem reOrder_then_render {σ : Type} (env : Env σ) (r : Request) (l : σ)
    (hm : r.method = "POST") (hp : r.path = "/todos/sort") :
    r.Form "id" = values "id" (r.postForm ++ r.query) ∧
    (ServeHTTP env r l).trace
      = [Event.ReOrder (r.Form "id"), Event.Todos,
         Event.ExecuteTemplate "items.gohtml"
          (.items (env.list.Todos (env.list.ReOrder (r.Form "id") l)))] ∧
    after env r l = env.list.ReOrder (r.Form "id") l := by
  refine ⟨form_of_post r "id" hm, ?_⟩
  rw [after, serve_of_routed env r l .reOrder [] (routed_reOrder r hm hp)]
  exact ⟨(reOrder_run env r l).2, (reOrder_run env r l).1⟩

/-- Witness for C4: the two items of the sample list, sent in reverse order. -/
theorem reOrder_then_render_witness :
    after exampleEnv
        ⟨"POST", "/todos/sort", [], [("id", "00000000-0000-0000-0000-000000000007"), ("id", "00000000-0000-0000-0000-000000000003")]⟩ exampleList
      = [⟨⟨7⟩, "walk dog", true⟩, ⟨⟨3⟩, "buy milk", false⟩] :=
  (reOrder_then_render exampleEnv
    ⟨"POST", "/todos/sort", [], [("id", "00000000-0000-0000-0000-000000000007"), ("id", "00000000-0000-0000-0000-000000000003")]⟩
    exampleList rfl rfl).2.2.trans (by decide)

/-! ## Searching -/

theorem containsSub_nil (text : List Char) : Spec.containsSub text [] = true := by
  cases text <;> simp [Spec.containsSub, List.tails]

theorem Search_empty (fold : Char → Char) (l : TodoList) : Spec.Search fold "" l = l := by
  simp [Spec.Search, containsSub_nil]

/-- C5: every `GET /todos` request executes `items.gohtml` on exactly what
`Search` returns for the first value of the query parameter `search`, the
empty string when the parameter is absent; and with the list service of the
specification a request without the parameter renders all items. -/
theorem search_renders_Search {σ : Type} (env : Env σ) (r : Request) (l : σ)
    (hm : r.method = "GET") (hp : r.path = "/todos") :
    r.QueryGet "search" = (values "search" r.query).headD "" ∧
    (ServeHTTP env r l).trace
      = [Event.Search (r.QueryGet "search"),
         Event.ExecuteTemplate "items.gohtml"
          (.items (env.list.Search (r.QueryGet "search") l))] ∧
    (∀ (senv : Env TodoList) (parse : String → Except String UUID) (fold : Char → Char)
        (tl : TodoList),
      senv.list = specList parse fold → values "search" r.query = [] →
      (ServeHTTP senv r tl).trace
        = [Event.Search "", Event.ExecuteTemplate "items.gohtml" (.items tl)]) := by
  have hrun : ∀ {τ : Type} (e : Env τ) (t : τ),
      (ServeHTTP e r t).trace
        = [Event.Search (r.QueryGet "search"),
           Event.ExecuteTemplate "items.gohtml"
            (.items (e.list.Search (r.QueryGet "search") t))] := by
    intro τ e t
    rw [serve_of_routed e r t .search [] (routed_search r hm hp)]
    exact (search_run e r t).2
  refine ⟨rfl, hrun env l, ?_⟩
  intro senv parse fold tl hlist habsent
  have hq : r.QueryGet "search" = "" := by simp [Request.QueryGet, habsent]
  rw [hrun senv tl, hq, hlist]
  simp [specList, Search_empty]

/-- Witness for C5: `GET /todos` without a `search` parameter renders the
whole sample list. -/
theorem search_renders_Search_witness :
    (ServeHTTP exampleEnv ⟨"GET", "/todos", [], []⟩ exampleList).trace
      = [Event.Search "", Event.ExecuteTemplate "items.gohtml" (.items exampleList)] :=
  (search_renders_Search exampleEnv ⟨"GET", "/todos", [], []⟩ exampleList rfl rfl).2.2
    exampleEnv uuidParse id exampleList rfl rfl

/-! ## Toggling and deleting -/

theorem toggle_good_id {σ : Type} (env : Env σ) (r : Request) (vars : Vars) (l : σ)
    (id : UUID) (hp : env.parse (vars.get "ID") = .ok id) :
    (toggle env r vars (World.start l)).list = (env.list.ToggleDone id l).2 ∧
    (toggle env r vars (World.start l)).w.status = 200 ∧
    (toggle env r vars (World.start l)).trace
      = [Event.ToggleDone id,
         Event.ExecuteTemplate "item.gohtml" (.item (env.list.ToggleDone id l).1)] := by
  simp only [toggle, hp, listToggleDone, ExecuteTemplate, World.start, status_foldl_Write]
  exact ⟨trivial, rfl, rfl⟩

theorem delete_good_id {σ : Type} (env : Env σ) (r : Request) (vars : Vars) (l : σ)
    (id : UUID) (hp : env.parse (vars.get "ID") = .ok id) :
    (delete env r vars (World.start l)).list = env.list.Delete id l ∧
    (delete env r vars (World.start l)).w.status = 200 ∧
    (delete env r vars (World.start l)).trace = [Event.Delete id] := by
  simp only [delete, hp, listDelete, World.start]
  exact ⟨trivial, rfl, rfl⟩

theorem toggleItem_absent (id : UUID) (l : TodoList) (hid : ∀ t ∈ l, t.ID ≠ id) :
    Spec.toggleItem id l = l := by
  induction l with
  | nil => rfl
  | cons t ts ih =>
    have ht : t.ID ≠ id := hid t (List.mem_cons_self _ _)
    have hts : ∀ u ∈ ts, u.ID ≠ id := fun u hu => hid u (List.mem_cons_of_mem _ hu)
    simp [Spec.toggleItem, ht, ih hts]

theorem Delete_absent (id : UUID) (l : TodoList) (hid : ∀ t ∈ l, t.ID ≠ id) :
    Spec.Delete id l = l := by
  induction l with
  | nil => rfl
  | cons t ts ih =>
    have ht : t.ID ≠ id := hid t (List.mem_cons_self _ _)
    have hts : ∀ u ∈ ts, u.ID ≠ id := fun u hu => hid u (List.mem_cons_of_mem _ hu)
    simp [Spec.Delete, ht, ih hts]

theorem toggleItem_twice (id : UUID) (l : TodoList) :
    Spec.toggleItem id (Spec.toggleItem id l) = l := by
  induction l with
  | nil => rfl
  | cons t ts ih =>
    by_cases ht : t.ID = id
    · cases t with
      | mk tid d done =>
        simp only at ht
        simp [Spec.toggleItem, ht]
    · simp [Spec.toggleItem, ht, ih]

theorem toggleItem_present (id : UUID) (l : TodoList) (hid : ∃ t ∈ l, t.ID = id) :
    Spec.toggleItem id l ≠ l := by
  induction l with
  | nil => simp at hid
  | cons t ts ih =>
    by_cases ht : t.ID = id
    · simp only [Spec.toggleItem, ht, if_true]
      intro heq
      have h1 := congrArg (fun u => u.Done) (List.cons.inj heq).1
      cases hd : t.Done <;> simp [hd] at h1
    · have hts : ∃ u ∈ ts, u.ID = id := by
        obtain ⟨u, hu, hu2⟩ := hid
        rcases List.mem_cons.mp hu with rfl | hmem
        · exact absurd hu2 ht
        · exact ⟨u, hmem, hu2⟩
      simp only [Spec.toggleItem, ht, if_false]
      intro heq
      exact ih hts (List.cons.inj heq).2

/-- C6: with the list service of the specification, a request the router hands
to `toggle` or to `delete` whose `ID` is a well-formed identifier of no item in
the list leaves the list unchanged and is answered with status 200. -/
theorem unknown_id_is_silent_noop (env : Env TodoList)
    (parse : String → Except String UUID) (fold : Char → Char) (r : Request)
    (l : TodoList) (h : HandlerId) (vars : Vars) (id : UUID)
    (hlist : env.list = specList parse fold)
    (hr : routed r = some (h, vars)) (hh : h = .toggle ∨ h = .delete)
    (hp : env.parse (vars.get "ID") = .ok id)
    (hid : ∀ t ∈ l, t.ID ≠ id) :
    after env r l = l ∧ statusOf env r l = 200 := by
  rw [after, statusOf, serve_of_routed env r l h vars hr]
  rcases hh with rfl | rfl
  · obtain ⟨h1, h2, -⟩ := toggle_good_id env r vars l id hp
    refine ⟨?_, h2⟩
    simp only [HandlerId.run]
    rw [h1, hlist]
    exact toggleItem_absent id l hid
  · obtain ⟨h1, h2, -⟩ := delete_good_id env r vars l id hp
    refine ⟨?_, h2⟩
    simp only [HandlerId.run]
    rw [h1, hlist]
    exact Delete_absent id l hid

/-- Witness for C6: `DELETE /todos/00000000-0000-0000-0000-000000000007` on a list
whose only item has the identifier `00000000-0000-0000-0000-000000000003`. -/
theorem unknown_id_is_silent_noop_witness :
    after exampleEnv ⟨"DELETE", "/todos/00000000-0000-0000-0000-000000000007", [], []⟩ [⟨⟨3⟩, "buy milk", false⟩]
      = [⟨⟨3⟩, "buy milk", false⟩] ∧
    statusOf exampleEnv ⟨"DELETE", "/todos/00000000-0000-0000-0000-000000000007", [], []⟩ [⟨⟨3⟩, "buy milk", false⟩]
      = 200 :=
  unknown_id_is_silent_noop exampleEnv uuidParse id
    ⟨"DELETE", "/todos/00000000-0000-0000-0000-000000000007", [], []⟩ [⟨⟨3⟩, "buy milk", false⟩] .delete
    [("ID", "00000000-0000-0000-0000-000000000007")] ⟨7⟩ rfl (by decide) (Or.inr rfl) rfl (by decide)

/-- C7: with the list service of the specification, two successive toggle
requests for the identifier of an item of the list give back the list as it
was (every item, the toggled one included, in the same order), while one such
request alone does change the list. -/
theorem toggle_twice_restores (env : Env TodoList)
    (parse : String → Except String UUID) (fold : Char → Char) (r : Request)
    (l : TodoList) (vars : Vars) (id : UUID)
    (hlist : env.list = specList parse fold)
    (hr : routed r = some (.toggle, vars))
    (hp : env.parse (vars.get "ID") = .ok id)
    (hid : ∃ t ∈ l, t.ID = id) :
    after env r (after env r l) = l ∧ after env r l ≠ l := by
  have hone : ∀ l1 : TodoList, after env r l1 = Spec.toggleItem id l1 := by
    intro l1
    rw [after, serve_of_routed env r l1 .toggle vars hr]
    simp only [HandlerId.run]
    rw [(toggle_good_id env r vars l1 id hp).1, hlist]
    rfl
  rw [hone, hone, toggleItem_twice]
  exact ⟨rfl, toggleItem_present id l hid⟩

/-- Witness for C7: `POST /todos/00000000-0000-0000-0000-000000000007/toggle`, twice,
on the sample list. -/
theorem toggle_twice_restores_witness :
    after exampleEnv ⟨"POST", "/todos/00000000-0000-0000-0000-000000000007/toggle", [], []⟩
        (after exampleEnv ⟨"POST", "/todos/00000000-0000-0000-0000-000000000007/toggle", [], []⟩ exampleList)
      = exampleList ∧
    after exampleEnv ⟨"POST", "/todos/00000000-0000-0000-0000-000000000007/toggle", [], []⟩ exampleList ≠ exampleList :=
  toggle_twice_restores exampleEnv uuidParse id
    ⟨"POST", "/todos/00000000-0000-0000-0000-000000000007/toggle", [], []⟩ exampleList [("ID", "00000000-0000-0000-0000-000000000007")] ⟨7⟩ rfl
    (by decide) rfl (by decide)

/-! ## The route table -/

theorem stripLit_some (lit s rest : List Char) (h : stripLit lit s = some rest) :
    s = lit ++ rest := by
  induction lit generalizing s with
  | nil =>
    simp only [stripLit, Option.some.injEq] at h
    simp [h]
  | cons c lit ih =>
    cases s with
    | nil => simp [stripLit] at h
    | cons d s =>
      by_cases hcd : c = d
      · simp only [stripLit, hcd, if_true] at h
        simp [hcd, ih s h]
      · simp [stripLit, hcd] at h

theorem method_of_match (rt : Route) (mm m p : String) (hms : rt.methods = [mm])
    (h : (rt.matchReq m p).isSome = true) : m = mm := by
  unfold Route.matchReq Route.matchMethod at h
  rw [hms] at h
  by_cases hm : m = mm
  · exact hm
  · simp [hm] at h

theorem path_of_match (rt : Route) (m p : String)
    (h : (rt.matchReq m p).isSome = true) : (rt.matchPath p).isSome = true := by
  unfold Route.matchReq at h
  split at h
  · exact h
  · simp at h

theorem front_of_match (t : String) (ps : List Piece) (w : Bool) (ms : List String)
    (hd : HandlerId) (p : String)
    (h : (Route.matchPath ⟨.lit t :: ps, w, ms, hd⟩ p).isSome = true) :
    ∃ rest, p.data = t.data ++ rest := by
  unfold Route.matchPath at h
  simp only [matchPieces] at h
  cases hs : stripLit t.data p.data with
  | none => simp [hs] at h
  | some rest => exact ⟨rest, stripLit_some _ _ _ hs⟩

theorem lit_of_match (t : String) (ms : List String) (hd : HandlerId) (p : String)
    (h : (Route.matchPath ⟨[.lit t], true, ms, hd⟩ p).isSome = true) : p = t := by
  unfold Route.matchPath at h
  simp only [matchPieces] at h
  cases hs : stripLit t.data p.data with
  | none => simp [hs] at h
  | some rest =>
    have hp := stripLit_some _ _ _ hs
    cases rest with
    | nil =>
      simp only [List.append_nil] at hp
      exact String.ext hp
    | cons c cs => simp [hs] at h

theorem filter_length_le_one {α : Type} (P : α → Bool) (l : List α)
    (hl : l.Pairwise (fun a b => ¬(P a = true ∧ P b = true))) :
    (l.filter P).length ≤ 1 := by
  induction l with
  | nil => simp
  | cons a l ih =>
    rw [List.pairwise_cons] at hl
    by_cases ha : P a = true
    · have hnil : l.filter P = [] := by
        rw [List.filter_eq_nil_iff]
        intro b hb hPb
        exact hl.1 b hb ⟨ha, hPb⟩
      simp [List.filter_cons, ha, hnil]
    · simp only [List.filter_cons, ha]
      exact ih hl.2

theorem todos_not_static (r1 r2 : List Char)
    (h : ("/todos/" : String).data ++ r1 = ("/static/" : String).data ++ r2) : False := by
  have e1 : ("/todos/" : String).data = ['/', 't', 'o', 'd', 'o', 's', '/'] := rfl
  have e2 : ("/static/" : String).data = ['/', 's', 't', 'a', 't', 'i', 'c', '/'] := rfl
  rw [e1, e2] at h
  simp at h

theorem routes_exclusive (m p : String) :
    NewTodoHandler.Pairwise (fun a b =>
      ¬((fun rt : Route => (rt.matchReq m p).isSome) a = true ∧
        (fun rt : Route => (rt.matchReq m p).isSome) b = true)) := by
  unfold NewTodoHandler
  simp only [List.pairwise_cons, List.mem_cons, List.mem_singleton, List.not_mem_nil,
    forall_eq_or_imp, forall_eq, List.Pairwise.nil, and_true, IsEmpty.forall_iff,
    implies_true]
  and_intros
  all_goals
    rintro ⟨ha, hb⟩
    first
    | exact absurd ((method_of_match _ _ m p rfl ha).symm.trans
        (method_of_match _ _ m p rfl hb)) (by decide)
    | (obtain rfl := lit_of_match _ _ _ p (path_of_match _ m p ha)
       exact absurd (path_of_match _ m _ hb) (by decide))
    | (obtain rfl := lit_of_match _ _ _ p (path_of_match _ m p hb)
       exact absurd (path_of_match _ m _ ha) (by decide))
    | (obtain ⟨r1, h1⟩ := front_of_match _ _ _ _ _ p (path_of_match _ m p ha)
       obtain ⟨r2, h2⟩ := front_of_match _ _ _ _ _ p (path_of_match _ m p hb)
       exact todos_not_static r1 r2 (h1.symm.trans h2))

theorem matching_le_one (m p : String) : (matching NewTodoHandler m p).length ≤ 1 :=
  filter_length_le_one _ NewTodoHandler (routes_exclusive m p)

theorem Match_eq_head (table : List Route) (m p : String) :
    Match table m p
      = (matching table m p).head?.bind
          (fun rt => (rt.matchReq m p).map (fun vars => (rt.handler, vars))) := by
  induction table with
  | nil => rfl
  | cons rt rest ih =>
    unfold Match matching
    cases hreq : rt.matchReq m p with
    | none =>
      simp only [List.filter_cons, hreq, Option.isSome_none, Bool.false_eq_true, if_false]
      exact ih
    | some vars =>
      simp [List.filter_cons, hreq]

theorem perm_short {α : Type} (l1 l2 : List α) (hp : l1.Perm l2) (hl : l2.length ≤ 1) :
    l1 = l2 := by
  match l2, hl with
  | [], _ => exact List.Perm.eq_nil hp
  | [a], _ => exact List.perm_singleton.mp hp

theorem Match_perm (table : List Route) (m p : String) (hp : table.Perm NewTodoHandler) :
    Match table m p = Match NewTodoHandler m p := by
  rw [Match_eq_head, Match_eq_head]
  have h : matching table m p = matching NewTodoHandler m p :=
    perm_short _ _ (List.Perm.filter _ hp) (matching_le_one m p)
  rw [h]

/-- C9: no request is matched by two of the seven registered routes, so the
router picks the same handler in whatever order the routes are registered;
`POST /todos/sort` is matched by the `reOrder` route alone, and
`DELETE /todos/sort` reaches `delete` with `ID = "sort"`. -/
theorem route_table_unambiguous (m p : String) :
    (matching NewTodoHandler m p).length ≤ 1 ∧
    (∀ table : List Route, table.Perm NewTodoHandler →
      Match table m p = Match NewTodoHandler m p) ∧
    (matching NewTodoHandler "POST" "/todos/sort").map (fun rt => rt.handler) = [.reOrder] ∧
    Match NewTodoHandler "POST" "/todos/sort" = some (.reOrder, []) ∧
    Match NewTodoHandler "DELETE" "/todos/sort" = some (.delete, [("ID", "sort")]) :=
  ⟨matching_le_one m p, fun table hp => Match_perm table m p hp, by decide, by decide,
    by decide⟩

/-- Witness for C9: with the routes registered in reverse order,
`POST /todos/sort` still reaches `reOrder`. -/
theorem route_table_unambiguous_witness :
    Match NewTodoHandler.reverse "POST" "/todos/sort" = some (.reOrder, []) :=
  ((route_table_unambiguous "POST" "/todos/sort").2.1 NewTodoHandler.reverse
    (List.reverse_perm NewTodoHandler)).trans (by decide)

/-! ## Template failures -/

theorem render_error_index {σ : Type} (env : Env σ) (r : Request) (l : σ) (msg : String)
    (hr : ∃ vars, routed r = some (.index, vars))
    (hw : (env.templ "index.gohtml" (.items (env.list.Todos l))).writes = [])
    (he : (env.templ "index.gohtml" (.items (env.list.Todos l))).err = some msg) :
    statusOf env r l = 500 := by
  obtain ⟨vars, hr⟩ := hr
  rw [statusOf, serve_of_routed env r l .index vars hr]
  simp only [HandlerId.run, index, listTodos, ExecuteTemplate, World.start, hw, he,
    List.foldl_nil]
  exact status_httpError msg 500 _ rfl

theorem render_error_search {σ : Type} (env : Env σ) (r : Request) (l : σ) (msg : String)
    (hr : ∃ vars, routed r = some (.search, vars))
    (hw : (env.templ "items.gohtml"
      (.items (env.list.Search (r.QueryGet "search") l))).writes = [])
    (he : (env.templ "items.gohtml"
      (.items (env.list.Search (r.QueryGet "search") l))).err = some msg) :
    statusOf env r l = 500 := by
  obtain ⟨vars, hr⟩ := hr
  rw [statusOf, serve_of_routed env r l .search vars hr]
  simp only [HandlerId.run, search, listSearch, ExecuteTemplate, World.start, hw, he,
    List.foldl_nil]
  exact status_httpError msg 500 _ rfl

theorem render_error_reOrder {σ : Type} (env : Env σ) (r : Request) (l : σ) (msg : String)
    (hr : ∃ vars, routed r = some (.reOrder, vars))
    (hw : (env.templ "items.gohtml"
      (.items (env.list.Todos (env.list.ReOrder (r.Form "id") l)))).writes = [])
    (he : (env.templ "items.gohtml"
      (.items (env.list.Todos (env.list.ReOrder (r.Form "id") l)))).err = some msg) :
    statusOf env r l = 500 := by
  obtain ⟨vars, hr⟩ := hr
  rw [statusOf, serve_of_routed env r l .reOrder vars hr]
  simp only [HandlerId.run, reOrder, listReOrder, listTodos, ExecuteTemplate, World.start,
    hw, he, List.foldl_nil]
  exact status_httpError msg 500 _ rfl

theorem toggle_status {σ : Type} (env : Env σ) (r : Request) (l : σ) (vars : Vars)
    (id : UUID) (hr : routed r = some (.toggle, vars))
    (hp : env.parse (vars.get "ID") = .ok id) : statusOf env r l = 200 := by
  rw [statusOf, serve_of_routed env r l .toggle vars hr]
  exact (toggle_good_id env r vars l id hp).2.1

theorem sent_Write (b : String) (w : ResponseWriter) : (w.Write b).sent.isSome = true := by
  cases w with
  | mk header sent body =>
    cases sent <;> rfl

theorem sent_foldl_Write (bs : List String) (w : ResponseWriter)
    (hw : w.sent.isSome = true) :
    (bs.foldl (fun w b => w.Write b) w).sent.isSome = true := by
  induction bs generalizing w with
  | nil => exact hw
  | cons b bs ih => exact ih (w.Write b) (sent_Write b w)

theorem sent_writes (bs : List String) (w : ResponseWriter) (hbs : bs ≠ []) :
    (bs.foldl (fun w b => w.Write b) w).sent.isSome = true := by
  cases bs with
  | nil => exact absurd rfl hbs
  | cons b bs => exact sent_foldl_Write bs (w.Write b) (sent_Write b w)

theorem status_httpError_late (msg : String) (code : Nat) (w : ResponseWriter)
    (hw : w.sent.isSome = true) : (httpError msg code w).status = w.status := by
  rw [httpError, status_Write]
  cases w with
  | mk header sent body =>
    cases sent with
    | none => simp at hw
    | some q => rfl

theorem render_error_after_output {σ : Type} (env : Env σ) (r : Request) (l : σ)
    (h : HandlerId) (vars : Vars) (hr : routed r = some (h, vars))
    (hh : h = .index ∨ h = .search ∨ h = .reOrder)
    (hw : ∀ name data, (env.templ name data).writes ≠ []) :
    statusOf env r l = 200 := by
  have key : ∀ (name : String) (data : TemplData) (e : Option String),
      (match e with
        | some msg => httpError msg 500
            ((env.templ name data).writes.foldl (fun w b => w.Write b) ResponseWriter.fresh)
        | none =>
            (env.templ name data).writes.foldl (fun w b => w.Write b)
              ResponseWriter.fresh).status = 200 := by
    intro name data e
    cases e with
    | none => exact status_foldl_Write _ _
    | some msg =>
      simp only
      rw [status_httpError_late msg 500 _ (sent_writes _ _ (hw name data))]
      exact status_foldl_Write _ _
  rw [statusOf, serve_of_routed env r l h vars hr]
  rcases hh with rfl | rfl | rfl
  · simp only [HandlerId.run, index, listTodos, ExecuteTemplate, World.start]
    have hk := key "index.gohtml" (.items (env.list.Todos l))
      (env.templ "index.gohtml" (.items (env.list.Todos l))).err
    revert hk
    cases (env.templ "index.gohtml" (.items (env.list.Todos l))).err <;> exact id
  · simp only [HandlerId.run, search, listSearch, ExecuteTemplate, World.start]
    have hk := key "items.gohtml" (.items (env.list.Search (r.QueryGet "search") l))
      (env.templ "items.gohtml" (.items (env.list.Search (r.QueryGet "search") l))).err
    revert hk
    cases (env.templ "items.gohtml"
      (.items (env.list.Search (r.QueryGet "search") l))).err <;> exact id
  · simp only [HandlerId.run, reOrder, listReOrder, listTodos, ExecuteTemplate, World.start]
    have hk := key "items.gohtml"
      (.items (env.list.Todos (env.list.ReOrder (r.Form "id") l)))
      (env.templ "items.gohtml"
        (.items (env.list.Todos (env.list.ReOrder (r.Form "id") l)))).err
    revert hk
    cases (env.templ "items.gohtml"
      (.items (env.list.Todos (env.list.ReOrder (r.Form "id") l)))).err <;> exact id

/-- C2, at `POST /todos/00000000-0000-0000-0000-000000000007/toggle` with a
template set that fails: `uuid.Parse` accepts the identifier, `toggle`
executes `item.gohtml`, the execution returns an error, and the response
status is 200, not 500.  The same failure in `index`, on `GET /`, is answered
with 500 when the template has written nothing, and with 200 when it has
already written some output. -/
theorem toggle_drops_render_error :
    routed ⟨"POST", "/todos/00000000-0000-0000-0000-000000000007/toggle", [], []⟩
      = some (.toggle, [("ID", "00000000-0000-0000-0000-000000000007")]) ∧
    (ServeHTTP failingEnv ⟨"POST", "/todos/00000000-0000-0000-0000-000000000007/toggle", [], []⟩ exampleList).trace
      = [Event.ToggleDone ⟨7⟩,
         Event.ExecuteTemplate "item.gohtml" (.item ⟨⟨7⟩, "walk dog", false⟩)] ∧
    (failingEnv.templ "item.gohtml" (.item ⟨⟨7⟩, "walk dog", false⟩)).err
      = some "template: item.gohtml failed" ∧
    statusOf failingEnv ⟨"POST", "/todos/00000000-0000-0000-0000-000000000007/toggle", [], []⟩ exampleList = 200 ∧
    statusOf failingEnv ⟨"GET", "/", [], []⟩ exampleList = 500 ∧
    statusOf partialEnv ⟨"GET", "/", [], []⟩ exampleList = 200 := by
  decide

end TodoHTTP
